import Mathlib

/-!
Verification of the tree-layout / viewport-interaction core of the
knowledge-map frontend.

The embedded functions follow the JavaScript sources:
* `calculateBoundingBox`, `calculateFitTransform`, `truncateText`,
  `resolveTextCollisions` from the d3 utility module,
* `handlePan`, `handleZoom`, `handleFitToCanvas`, `handleKeyDown` from
  `useKeyboardNavigation.js`,
* the layout entry path of `useD3Tree.js` (guard on a falsy root, then
  `d3.hierarchy` which performs no input validation).

JavaScript numbers are modelled by `JSNum`: either NaN, a signed
infinity, or a finite rational.  The bounding-box fold genuinely starts
from `Infinity` / `-Infinity`, so infinities and NaN propagation are
modelled explicitly there.  The keyboard-navigation handlers and the
label-collision resolver only ever operate on finite values, and are
embedded directly over `ℚ`.
-/

/-- Model of a JavaScript number: NaN, a signed infinity (`inf true` is
`+Infinity`), or a finite value (signed zero is not distinguished). -/
inductive JSNum where
  | nan : JSNum
  | inf (pos : Bool) : JSNum
  | fin (q : ℚ) : JSNum
deriving DecidableEq

/-- JavaScript unary minus. -/
def JSNum.neg : JSNum → JSNum
  | nan => nan
  | inf p => inf !p
  | fin q => fin (-q)

/-- JavaScript addition (`+`) on numbers. -/
def JSNum.add : JSNum → JSNum → JSNum
  | nan, _ => nan
  | inf _, nan => nan
  | fin _, nan => nan
  | inf p, inf q => if p = q then inf p else nan
  | inf p, fin _ => inf p
  | fin _, inf p => inf p
  | fin a, fin b => fin (a + b)

/-- JavaScript subtraction (`-`) on numbers. -/
def JSNum.sub (a b : JSNum) : JSNum := a.add b.neg

/-- JavaScript multiplication (`*`) on numbers. -/
def JSNum.mul : JSNum → JSNum → JSNum
  | nan, _ => nan
  | inf _, nan => nan
  | fin _, nan => nan
  | inf p, inf q => inf (p = q)
  | inf p, fin q => if q = 0 then nan else if 0 < q then inf p else inf !p
  | fin q, inf p => if q = 0 then nan else if 0 < q then inf p else inf !p
  | fin a, fin b => fin (a * b)

/-- JavaScript division (`/`) on numbers. -/
def JSNum.div : JSNum → JSNum → JSNum
  | nan, _ => nan
  | inf _, nan => nan
  | fin _, nan => nan
  | inf _, inf _ => nan
  | inf p, fin q => if 0 ≤ q then inf p else inf !p
  | fin _, inf _ => fin 0
  | fin a, fin b =>
      if b = 0 then (if a = 0 then nan else if 0 < a then inf true else inf false)
      else fin (a / b)

/-- `Math.min` on two numbers (NaN-contaminating). -/
def JSNum.min : JSNum → JSNum → JSNum
  | nan, _ => nan
  | inf _, nan => nan
  | fin _, nan => nan
  | inf p, inf q => inf (p && q)
  | inf p, fin q => if p then fin q else inf false
  | fin q, inf p => if p then fin q else inf false
  | fin a, fin b => fin (Min.min a b)

/-- `Math.max` on two numbers (NaN-contaminating). -/
def JSNum.max : JSNum → JSNum → JSNum
  | nan, _ => nan
  | inf _, nan => nan
  | fin _, nan => nan
  | inf p, inf q => inf (p || q)
  | inf p, fin q => if p then inf true else fin q
  | fin q, inf p => if p then inf true else fin q
  | fin a, fin b => fin (Max.max a b)

/-- Whether a JavaScript number is finite (neither NaN nor an infinity). -/
def JSNum.isFinite : JSNum → Bool
  | fin _ => true
  | _ => false

/-- A laid-out tree node as consumed by the geometry utilities: only its
layout coordinates `x` and `y` are read. -/
structure DNode where
  x : JSNum
  y : JSNum
deriving DecidableEq

/-- Bounding box of a laid-out tree, as returned by `calculateBoundingBox`. -/
structure BBox where
  minX : JSNum
  maxX : JSNum
  minY : JSNum
  maxY : JSNum
deriving DecidableEq

/-- Body of the `descendants.forEach` loop in `calculateBoundingBox`. -/
def bboxStep (bb : BBox) (d : DNode) : BBox :=
  ⟨bb.minX.min d.x, bb.maxX.max d.x, bb.minY.min d.y, bb.maxY.max d.y⟩

/-- `calculateBoundingBox` from the d3 utility module: fold `Math.min` /
`Math.max` over all node coordinates, starting from
`minX = Infinity, maxX = -Infinity, minY = Infinity, maxY = -Infinity`. -/
def calculateBoundingBox (descendants : List DNode) : BBox :=
  descendants.foldl bboxStep ⟨.inf true, .inf false, .inf true, .inf false⟩

/-- Result record of `calculateFitTransform`. -/
structure FitTransform where
  translateX : JSNum
  translateY : JSNum
  scale : JSNum
deriving DecidableEq

/-- `calculateFitTransform` from the d3 utility module.  The call sites
always use the default `padding = 100`. -/
def calculateFitTransform (boundingBox : BBox) (width height padding : JSNum) :
    FitTransform :=
  let boundingWidth := (boundingBox.maxY.sub boundingBox.minY).add (padding.mul (.fin 2))
  let boundingHeight := (boundingBox.maxX.sub boundingBox.minX).add (padding.mul (.fin 2))
  let scale := (width.div boundingWidth).min ((height.div boundingHeight).min (.fin 3))
  let centerX := (boundingBox.minX.add boundingBox.maxX).div (.fin 2)
  let centerY := (boundingBox.minY.add boundingBox.maxY).div (.fin 2)
  let translateX := (width.div (.fin 2)).sub (centerY.mul scale)
  let translateY := (height.div (.fin 2)).sub (centerX.mul scale)
  ⟨translateX, translateY, scale⟩

/-- `truncateText` from the d3 utility module (`maxLength` defaults to 25
at the call site). -/
def truncateText (text : String) (maxLength : ℕ) : String :=
  if text.length > maxLength then (text.take maxLength) ++ "..." else text

/-- A collected label record in `resolveTextCollisions`: `x` is the left
edge (`translate-x + bbox.x`), `centerY` the node translate-y, `dy` the
current vertical text offset (`originalDy`).  The `y` and `depth` fields
are collected by the source but never read by the collision logic. -/
structure Label where
  x : ℚ
  y : ℚ
  width : ℚ
  height : ℚ
  centerY : ℚ
  depth : ℕ
  dy : ℚ
deriving DecidableEq

/-- The collision test of `resolveTextCollisions`: labels overlap
horizontally within a 20px margin and vertically (using the current
`dy` offsets) within a 10px margin. -/
def Collide (a b : Label) : Prop :=
  (¬(a.x + a.width + 20 < b.x ∨ b.x + b.width + 20 < a.x)) ∧
  (¬(a.centerY + a.dy + a.height / 2 + 10 < b.centerY + b.dy - b.height / 2 ∨
     b.centerY + b.dy + b.height / 2 + 10 < a.centerY + a.dy - a.height / 2))

instance (a b : Label) : Decidable (Collide a b) := by
  unfold Collide; infer_instance

/-- The symmetric push-apart adjustment applied to a colliding pair:
both labels are re-centred around the midpoint of their four edges,
separated by half the combined height plus a 15px margin. -/
def adjustPair (a b : Label) : Label × Label :=
  let aTop := a.centerY + a.dy - a.height / 2
  let aBottom := a.centerY + a.dy + a.height / 2
  let bTop := b.centerY + b.dy - b.height / 2
  let bBottom := b.centerY + b.dy + b.height / 2
  let midpoint := (aTop + aBottom + bTop + bBottom) / 4
  let spacing := (a.height + b.height) / 2 + 15
  ({ a with dy := midpoint - a.centerY - spacing / 2 },
   { b with dy := midpoint - b.centerY + spacing / 2 })

/-- One step of the inner double loop of `resolveTextCollisions`: check
the pair at indices `ij` and, on collision, write back both adjusted
labels and raise the `hasCollision` flag. -/
def collideStep (st : List Label × Bool) (ij : ℕ × ℕ) : List Label × Bool :=
  match st.1[ij.1]?, st.1[ij.2]? with
  | some a, some b =>
      if Collide a b then
        (((st.1.set ij.1 (adjustPair a b).1).set ij.2 (adjustPair a b).2), true)
      else st
  | _, _ => st

/-- Index pairs `(i, j)` with `i < j < n`, in the visit order of the
nested `for` loops. -/
def pairIndices (n : ℕ) : List (ℕ × ℕ) :=
  (List.range n).flatMap fun i => ((List.range n).filter (fun j => decide (i < j))).map (fun j => (i, j))

/-- One full pass of the collision loop over all pairs, returning the
updated labels and the `hasCollision` flag. -/
def onePass (arr : List Label) : List Label × Bool :=
  (pairIndices arr.length).foldl collideStep (arr, false)

/-- The bounded iteration (`maxIterations = 10`) of the collision loop,
stopping early after a pass that found no collision. -/
def resolveIterations : ℕ → List Label → List Label
  | 0, arr => arr
  | n + 1, arr =>
      let p := onePass arr
      if p.2 then resolveIterations n p.1 else p.1

/-- Insertion of one label into a list sorted by `x` (stable: an earlier
label is placed before later labels with equal `x`). -/
def insertByX (a : Label) : List Label → List Label
  | [] => [a]
  | b :: rest => if a.x ≤ b.x then a :: b :: rest else b :: insertByX a rest

/-- The `labels.sort((a, b) => a.x - b.x)` step: stable sort by `x`. -/
def sortByX : List Label → List Label
  | [] => []
  | a :: rest => insertByX a (sortByX rest)

/-- `resolveTextCollisions` from the d3 utility module, as a function on
the collected label records: sort by `x`, then run up to 10 collision
passes; the final `dy` values are written back to the text elements. -/
def resolveTextCollisions (labels : List Label) : List Label :=
  resolveIterations 10 (sortByX labels)

/-- The data of a label other than its vertical text offset `dy`. -/
def stripDy (l : Label) : ℚ × ℚ × ℚ × ℚ × ℚ × ℕ :=
  (l.x, l.y, l.width, l.height, l.centerY, l.depth)

/-- The pan/zoom state held in `transformRef`: translation `(x, y)` and
scale `k`. -/
structure ZoomTransform where
  x : ℚ
  y : ℚ
  k : ℚ
deriving DecidableEq

/-- `MOVE_DISTANCE` from `useKeyboardNavigation.js`. -/
def MOVE_DISTANCE : ℚ := 50

/-- `ZOOM_FACTOR` from `useKeyboardNavigation.js`. -/
def ZOOM_FACTOR : ℚ := 6 / 5

/-- `MIN_SCALE` from `useKeyboardNavigation.js` (keyboard zoom minimum). -/
def MIN_SCALE : ℚ := 1 / 2

/-- `MAX_SCALE` from `useKeyboardNavigation.js` (keyboard zoom maximum). -/
def MAX_SCALE : ℚ := 3

/-- The `scaleExtent([0.3, 3])` bounds installed on the d3 zoom behavior
in `setupZoom` (`useD3Tree.js`): the wheel/gesture zoom range. -/
def setupZoomScaleExtent : ℚ × ℚ := (3 / 10, 3)

/-- `handlePan` from `useKeyboardNavigation.js`: translate by a fixed
`MOVE_DISTANCE` step according to the WASD key, keeping the scale. -/
def handlePan (key : String) (t : ZoomTransform) : Option ZoomTransform :=
  let move : Option (ℚ × ℚ) :=
    if key = "w" then some (0, MOVE_DISTANCE)
    else if key = "s" then some (0, -MOVE_DISTANCE)
    else if key = "a" then some (MOVE_DISTANCE, 0)
    else if key = "d" then some (-MOVE_DISTANCE, 0)
    else none
  match move with
  | none => none
  | some (dx, dy) => some ⟨t.x + dx, t.y + dy, t.k⟩

/-- `handleZoom` from `useKeyboardNavigation.js`: multiply/divide the
scale by `ZOOM_FACTOR`, clamp to `[MIN_SCALE, MAX_SCALE]`, and recompute
the translation about the viewport center. -/
def handleZoom (key : String) (t : ZoomTransform) (width height : ℚ) :
    Option ZoomTransform :=
  let isZoomIn := key = "k"
  let isZoomOut := key = "j"
  if ¬isZoomIn ∧ ¬isZoomOut then none
  else
    let centerX := width / 2
    let centerY := height / 2
    let oldScale := t.k
    let newScale :=
      if isZoomIn then Min.min (oldScale * ZOOM_FACTOR) MAX_SCALE
      else Max.max (oldScale / ZOOM_FACTOR) MIN_SCALE
    let scaleFactor := newScale / oldScale
    some ⟨centerX - (centerX - t.x) * scaleFactor,
          centerY - (centerY - t.y) * scaleFactor,
          newScale⟩

/-- `handleFitToCanvas` from `useKeyboardNavigation.js`: null when there
is no tree data or no descendants, otherwise the fit transform for the
current layout (viewport sizes are finite client dimensions). -/
def handleFitToCanvas (descendants : Option (List DNode)) (width height : ℚ) :
    Option FitTransform :=
  match descendants with
  | none => none
  | some ds =>
      if ds.length = 0 then none
      else some (calculateFitTransform (calculateBoundingBox ds) (.fin width) (.fin height) (.fin 100))

/-- A keydown event as seen by the handler: the pressed key and the tag
name of the event target. -/
structure KeyEvent where
  key : String
  targetTagName : String

/-- The result of one `handleKeyDown` dispatch: either a pan/zoom
transform or a fit transform; `none` means the viewport transform is not
changed. -/
def handleKeyDown (e : KeyEvent) (t : ZoomTransform)
    (descendants : Option (List DNode)) (width height : ℚ) :
    Option (ZoomTransform ⊕ FitTransform) :=
  if e.targetTagName = "INPUT" ∨ e.targetTagName = "TEXTAREA" then none
  else
    let key := e.key.toLower
    if key = "w" ∨ key = "s" ∨ key = "a" ∨ key = "d" then
      (handlePan key t).map Sum.inl
    else if key = "j" ∨ key = "k" then
      (handleZoom key t width height).map Sum.inl
    else if key = "f" then
      (handleFitToCanvas descendants width height).map Sum.inr
    else none

/-- Repeated keyboard zoom: apply `handleZoom` for each key in turn,
leaving the transform unchanged on a null result (the `if (newTransform)`
guard in `handleKeyDown`). -/
def zoomSeq (width height : ℚ) : ZoomTransform → List String → ZoomTransform
  | t, [] => t
  | t, key :: rest => zoomSeq width height ((handleZoom key t width height).getD t) rest

/-- A JSON value as received for the knowledge tree: null, a non-object
(string) node, or an object with an optional `name` and a `children`
array.  (`name` absent models a node missing the required field.) -/
inductive JSValue where
  | null : JSValue
  | str (s : String) : JSValue
  | obj (name : Option String) (children : List JSValue) : JSValue

/-- The `d3.hierarchy` children accessor `d => d.children`: objects
expose their `children` array, other values have none. -/
def childrenOf : JSValue → List JSValue
  | .obj _ cs => cs
  | _ => []

/-- Reading `.name` off a node datum: `undefined` (here `none`) for
non-object nodes and for objects without the field. -/
def nameOf : JSValue → Option String
  | .obj n _ => n
  | _ => none

/-- A node of the `d3.hierarchy` result as far as the layout/render path
inspects it: the datum name and the depth. -/
structure LayoutNode where
  name : Option String
  depth : ℕ
deriving DecidableEq

mutual

/-- The descendant list produced by `d3.hierarchy` (node first, then
children in order, per `nameOf` and `childrenOf`); no validation of the
datum is performed. -/
def descendantsOf : JSValue → ℕ → List LayoutNode
  | .null, d => [⟨none, d⟩]
  | .str _, d => [⟨none, d⟩]
  | .obj n cs, d => ⟨n, d⟩ :: descendantsListOf cs (d + 1)

/-- Descendants of a list of child data at a given depth. -/
def descendantsListOf : List JSValue → ℕ → List LayoutNode
  | [], _ => []
  | c :: cs, d => descendantsOf c d ++ descendantsListOf cs d

end

/-- Whether the `knowledgeTree` value is falsy, triggering the early
return `if (!knowledgeTree || !svgRef.current) return;` in `useD3Tree`. -/
def isFalsyTree : Option JSValue → Bool
  | none => true
  | some .null => true
  | some (.str s) => s = ""
  | some (.obj _ _) => false

/-- The layout call of `useD3Tree`: an early return on a falsy root
(rendering nothing), otherwise `d3.hierarchy` plus the tree layout,
which accept any input without validation and never raise an error. -/
def useD3TreeLayout (knowledgeTree : Option JSValue) :
    Except String (List LayoutNode) :=
  match knowledgeTree with
  | none => .ok []
  | some .null => .ok []
  | some (.str s) => if s = "" then .ok [] else .ok (descendantsOf (.str s) 0)
  | some (.obj n cs) => .ok (descendantsOf (.obj n cs) 0)

/-- The label-rendering step `.text(d => truncateText(d.data.name))` in
`renderNodes`: when `name` is `undefined`, accessing `.length` inside
`truncateText` throws a TypeError. -/
def renderNodeLabel (n : LayoutNode) : Except String String :=
  match n.name with
  | none => .error "TypeError: cannot read length of undefined"
  | some s => .ok (truncateText s 25)

/-- The equal-and-opposite pan key: `w`/`s` and `a`/`d` are inverse
direction pairs. -/
def oppKey : String → String
  | "w" => "s"
  | "s" => "w"
  | "a" => "d"
  | "d" => "a"
  | k => k

lemma div_zoom_factor (q : ℚ) : q / ZOOM_FACTOR = q * (5 / 6) := by
  unfold ZOOM_FACTOR; ring

lemma zoom_step_clamped (key : String) (t : ZoomTransform) (w h : ℚ)
    (h1 : MIN_SCALE ≤ t.k) (h2 : t.k ≤ MAX_SCALE) :
    MIN_SCALE ≤ ((handleZoom key t w h).getD t).k ∧
      ((handleZoom key t w h).getD t).k ≤ MAX_SCALE := by
  unfold handleZoom
  by_cases hcond : (¬(key = "k") ∧ ¬(key = "j"))
  · rw [if_pos hcond]; exact ⟨h1, h2⟩
  · rw [if_neg hcond]
    dsimp only [Option.getD_some]
    by_cases hk : key = "k"
    · rw [if_pos hk]
      unfold MIN_SCALE MAX_SCALE ZOOM_FACTOR at *
      constructor
      · exact le_min (by linarith) (by linarith)
      · exact min_le_of_right_le (by norm_num)
    · rw [if_neg hk]
      have hdiv := div_zoom_factor t.k
      unfold MIN_SCALE MAX_SCALE ZOOM_FACTOR at *
      constructor
      · exact le_max_right _ _
      · exact max_le (by rw [hdiv]; linarith) (by norm_num)

/-- Claim C5: starting from any scale inside the configured keyboard
range `[MIN_SCALE, MAX_SCALE] = [0.5, 3]`, any sequence of keyboard zoom
steps (`handleZoom`, with the null-result guard of `handleKeyDown`)
keeps the scale inside that range after every step. -/
theorem zoom_scale_stays_clamped (t : ZoomTransform) (w h : ℚ)
    (h1 : MIN_SCALE ≤ t.k) (h2 : t.k ≤ MAX_SCALE) :
    ∀ keys : List String,
      MIN_SCALE ≤ (zoomSeq w h t keys).k ∧ (zoomSeq w h t keys).k ≤ MAX_SCALE := by
  intro keys
  induction keys generalizing t with
  | nil => exact ⟨h1, h2⟩
  | cons key rest ih =>
      have hstep := zoom_step_clamped key t w h h1 h2
      simpa only [zoomSeq] using ih _ hstep.1 hstep.2

/-- Witness for Claim C5 at scale 1 and a concrete key sequence. -/
theorem zoom_scale_stays_clamped_witness :
    (MIN_SCALE ≤ (ZoomTransform.mk 0 0 1).k ∧ (ZoomTransform.mk 0 0 1).k ≤ MAX_SCALE) ∧
    (MIN_SCALE ≤ (zoomSeq 800 600 ⟨0, 0, 1⟩ ["k", "k", "k", "j"]).k ∧
      (zoomSeq 800 600 ⟨0, 0, 1⟩ ["k", "k", "k", "j"]).k ≤ MAX_SCALE) :=
  ⟨⟨by norm_num [MIN_SCALE], by norm_num [MAX_SCALE]⟩,
   zoom_scale_stays_clamped ⟨0, 0, 1⟩ 800 600 (by norm_num [MIN_SCALE])
     (by norm_num [MAX_SCALE]) ["k", "k", "k", "j"]⟩

/-- Claim C6: for any current transform with nonzero scale, keyboard
zoom (in or out, clamped or not) keeps the world point that was mapped
to the viewport center mapped to the viewport center. -/
theorem zoom_keeps_center_fixed (key : String) (t : ZoomTransform) (w h : ℚ)
    (t2 : ZoomTransform) (hk : t.k ≠ 0) (hz : handleZoom key t w h = some t2) :
    ((w / 2 - t.x) / t.k) * t2.k + t2.x = w / 2 ∧
      ((h / 2 - t.y) / t.k) * t2.k + t2.y = h / 2 := by
  unfold handleZoom at hz
  by_cases hcond : (¬(key = "k") ∧ ¬(key = "j"))
  · rw [if_pos hcond] at hz; cases hz
  · rw [if_neg hcond] at hz
    injection hz with hz
    subst hz
    dsimp only
    by_cases hcase : key = "k"
    · rw [if_pos hcase]
      constructor <;> · field_simp; ring
    · rw [if_neg hcase]
      constructor <;> · field_simp; ring

/-- Witness for Claim C6 at a concrete transform and zoom-in key. -/
theorem zoom_keeps_center_fixed_witness :
    ((ZoomTransform.mk 0 0 1).k ≠ 0 ∧
      handleZoom "k" ⟨0, 0, 1⟩ 100 100 = some ⟨100 / 2 - (100 / 2 - 0) * (Min.min (1 * ZOOM_FACTOR) MAX_SCALE / 1), 100 / 2 - (100 / 2 - 0) * (Min.min (1 * ZOOM_FACTOR) MAX_SCALE / 1), Min.min (1 * ZOOM_FACTOR) MAX_SCALE⟩) ∧
    (((100 / 2 - (ZoomTransform.mk 0 0 1).x) / (ZoomTransform.mk 0 0 1).k) *
        (ZoomTransform.mk (100 / 2 - (100 / 2 - 0) * (Min.min (1 * ZOOM_FACTOR) MAX_SCALE / 1)) (100 / 2 - (100 / 2 - 0) * (Min.min (1 * ZOOM_FACTOR) MAX_SCALE / 1)) (Min.min (1 * ZOOM_FACTOR) MAX_SCALE)).k +
        (ZoomTransform.mk (100 / 2 - (100 / 2 - 0) * (Min.min (1 * ZOOM_FACTOR) MAX_SCALE / 1)) (100 / 2 - (100 / 2 - 0) * (Min.min (1 * ZOOM_FACTOR) MAX_SCALE / 1)) (Min.min (1 * ZOOM_FACTOR) MAX_SCALE)).x = 100 / 2 ∧
      ((100 / 2 - (ZoomTransform.mk 0 0 1).y) / (ZoomTransform.mk 0 0 1).k) *
        (ZoomTransform.mk (100 / 2 - (100 / 2 - 0) * (Min.min (1 * ZOOM_FACTOR) MAX_SCALE / 1)) (100 / 2 - (100 / 2 - 0) * (Min.min (1 * ZOOM_FACTOR) MAX_SCALE / 1)) (Min.min (1 * ZOOM_FACTOR) MAX_SCALE)).k +
        (ZoomTransform.mk (100 / 2 - (100 / 2 - 0) * (Min.min (1 * ZOOM_FACTOR) MAX_SCALE / 1)) (100 / 2 - (100 / 2 - 0) * (Min.min (1 * ZOOM_FACTOR) MAX_SCALE / 1)) (Min.min (1 * ZOOM_FACTOR) MAX_SCALE)).y = 100 / 2) :=
  ⟨⟨one_ne_zero, rfl⟩,
   zoom_keeps_center_fixed "k" ⟨0, 0, 1⟩ 100 100 _ one_ne_zero rfl⟩

/-- Claim C8: a keydown whose target is a text input (INPUT or
TEXTAREA) is ignored by the keyboard navigation handler: no pan, zoom,
or fit transform is produced, so the viewport transform is unchanged. -/
theorem keydown_in_text_field_no_op (e : KeyEvent) (t : ZoomTransform)
    (ds : Option (List DNode)) (w h : ℚ)
    (htag : e.targetTagName = "INPUT" ∨ e.targetTagName = "TEXTAREA") :
    handleKeyDown e t ds w h = none := by
  unfold handleKeyDown
  rw [if_pos htag]

/-- Witness for Claim C8 at a concrete pan-key event inside an INPUT. -/
theorem keydown_in_text_field_no_op_witness :
    ((KeyEvent.mk "w" "INPUT").targetTagName = "INPUT" ∨
      (KeyEvent.mk "w" "INPUT").targetTagName = "TEXTAREA") ∧
    handleKeyDown ⟨"w", "INPUT"⟩ ⟨0, 0, 1⟩ none 800 600 = none :=
  ⟨Or.inl rfl,
   keydown_in_text_field_no_op ⟨"w", "INPUT"⟩ ⟨0, 0, 1⟩ none 800 600 (Or.inl rfl)⟩

/-- Claim C9: a keyboard pan followed by the equal-and-opposite pan
returns the transform to its original translation exactly, with the
scale unchanged throughout, and each pan step moves the translation by
exactly `MOVE_DISTANCE` logical pixels regardless of the current scale. -/
theorem pan_roundtrip (t : ZoomTransform) (key : String)
    (h : key = "w" ∨ key = "s" ∨ key = "a" ∨ key = "d") :
    ∃ t1 t2, handlePan key t = some t1 ∧ handlePan (oppKey key) t1 = some t2 ∧
      t2 = t ∧ t1.k = t.k ∧
      (t1.x - t.x) * (t1.x - t.x) + (t1.y - t.y) * (t1.y - t.y) =
        MOVE_DISTANCE * MOVE_DISTANCE := by
  obtain rfl | rfl | rfl | rfl := h <;>
  · refine ⟨_, _, rfl, rfl, ?_, rfl, by dsimp only; ring⟩
    obtain ⟨x, y, k⟩ := t
    congr 1 <;> ring

/-- Witness for Claim C9 at a concrete transform and the `w` key. -/
theorem pan_roundtrip_witness :
    ("w" = "w" ∨ "w" = "s" ∨ "w" = "a" ∨ "w" = "d") ∧
    (∃ t1 t2, handlePan "w" ⟨1, 2, 3⟩ = some t1 ∧
      handlePan (oppKey "w") t1 = some t2 ∧ t2 = ⟨1, 2, 3⟩ ∧
      t1.k = (ZoomTransform.mk 1 2 3).k ∧
      (t1.x - (ZoomTransform.mk 1 2 3).x) * (t1.x - (ZoomTransform.mk 1 2 3).x) +
        (t1.y - (ZoomTransform.mk 1 2 3).y) * (t1.y - (ZoomTransform.mk 1 2 3).y) =
        MOVE_DISTANCE * MOVE_DISTANCE) :=
  ⟨Or.inl rfl, pan_roundtrip ⟨1, 2, 3⟩ "w" (Or.inl rfl)⟩

/-- Claim C10: from a scale below the keyboard minimum 0.5 (reachable
through the wheel zoom, whose extent goes down to 0.3), a keyboard zoom
out increases the scale, clamping it up to exactly `MIN_SCALE = 0.5`;
the wheel minimum is strictly below the keyboard minimum. -/
theorem zoom_out_clamps_up_to_keyboard_min (t : ZoomTransform) (w h : ℚ)
    (h1 : setupZoomScaleExtent.1 ≤ t.k) (h2 : t.k < MIN_SCALE) :
    ∃ t2, handleZoom "j" t w h = some t2 ∧ t2.k = MIN_SCALE ∧ t.k < t2.k ∧
      setupZoomScaleExtent.1 < MIN_SCALE := by
  have hns : Max.max (t.k / ZOOM_FACTOR) MIN_SCALE = MIN_SCALE := by
    apply max_eq_right
    rw [div_zoom_factor]
    unfold MIN_SCALE at *
    unfold setupZoomScaleExtent at h1
    simp only at h1
    linarith
  refine ⟨_, rfl, ?_, ?_, by norm_num [setupZoomScaleExtent, MIN_SCALE]⟩
  · show (if ("j" = "k") then Min.min ((ZoomTransform.k t) * ZOOM_FACTOR) MAX_SCALE
      else Max.max ((ZoomTransform.k t) / ZOOM_FACTOR) MIN_SCALE) = MIN_SCALE
    rw [if_neg (by decide)]
    exact hns
  · show t.k < (if ("j" = "k") then Min.min ((ZoomTransform.k t) * ZOOM_FACTOR) MAX_SCALE
      else Max.max ((ZoomTransform.k t) / ZOOM_FACTOR) MIN_SCALE)
    rw [if_neg (by decide), hns]
    exact h2

/-- Witness for Claim C10 at scale 0.3, the wheel-zoom minimum. -/
theorem zoom_out_clamps_up_to_keyboard_min_witness :
    (setupZoomScaleExtent.1 ≤ (ZoomTransform.mk 0 0 (3 / 10)).k ∧
      (ZoomTransform.mk 0 0 (3 / 10)).k < MIN_SCALE) ∧
    (∃ t2, handleZoom "j" ⟨0, 0, 3 / 10⟩ 800 600 = some t2 ∧ t2.k = MIN_SCALE ∧
      (ZoomTransform.mk 0 0 (3 / 10)).k < t2.k ∧ setupZoomScaleExtent.1 < MIN_SCALE) :=
  ⟨⟨by norm_num [setupZoomScaleExtent], by norm_num [MIN_SCALE]⟩,
   zoom_out_clamps_up_to_keyboard_min ⟨0, 0, 3 / 10⟩ 800 600
     (by norm_num [setupZoomScaleExtent]) (by norm_num [MIN_SCALE])⟩

/-- Claim C2 (code bug): the layout call of `useD3Tree` performs no
input validation.  A root object missing `name`, or a non-object root,
is laid out silently as a node whose `name` is undefined — the layout
call returns nodes with no error, and the missing `name` only surfaces
later as a TypeError inside `truncateText` during label rendering.  A
null/absent root does produce an empty layout without an error, as the
claim states. -/
theorem useD3Tree_layout_no_validation :
    useD3TreeLayout (some (.obj none [])) = .ok [⟨none, 0⟩] ∧
    useD3TreeLayout (some (.str "oops")) = .ok [⟨none, 0⟩] ∧
    useD3TreeLayout none = .ok [] ∧
    useD3TreeLayout (some .null) = .ok [] ∧
    renderNodeLabel ⟨none, 0⟩ = .error "TypeError: cannot read length of undefined" :=
  ⟨rfl, rfl, rfl, rfl, rfl⟩

lemma JSNum.isFinite_exists {n : JSNum} (hn : n.isFinite = true) : ∃ q, n = fin q := by
  cases n with
  | fin q => exact ⟨q, rfl⟩
  | nan => simp [JSNum.isFinite] at hn
  | inf p => simp [JSNum.isFinite] at hn

lemma bboxFold_fin (l : List DNode) (a b c d : ℚ) (hab : a ≤ b) (hcd : c ≤ d)
    (hl : ∀ n ∈ l, n.x.isFinite = true ∧ n.y.isFinite = true) :
    ∃ a2 b2 c2 d2 : ℚ, a2 ≤ b2 ∧ c2 ≤ d2 ∧
      l.foldl bboxStep ⟨.fin a, .fin b, .fin c, .fin d⟩ =
        ⟨.fin a2, .fin b2, .fin c2, .fin d2⟩ := by
  induction l generalizing a b c d with
  | nil => exact ⟨a, b, c, d, hab, hcd, rfl⟩
  | cons n t ih =>
      obtain ⟨hx, hy⟩ := hl n (List.mem_cons_self n t)
      obtain ⟨qx, hqx⟩ := JSNum.isFinite_exists hx
      obtain ⟨qy, hqy⟩ := JSNum.isFinite_exists hy
      have step : bboxStep ⟨.fin a, .fin b, .fin c, .fin d⟩ n =
          ⟨.fin (Min.min a qx), .fin (Max.max b qx),
           .fin (Min.min c qy), .fin (Max.max d qy)⟩ := by
        simp [bboxStep, hqx, hqy, JSNum.min, JSNum.max]
      rw [List.foldl_cons, step]
      exact ih _ _ _ _
        (le_trans (min_le_left a qx) (le_trans hab (le_max_left b qx)))
        (le_trans (min_le_left c qy) (le_trans hcd (le_max_left d qy)))
        (fun m hm => hl m (List.mem_cons_of_mem n hm))

lemma calculateBoundingBox_fin (l : List DNode) (hne : l ≠ [])
    (hl : ∀ n ∈ l, n.x.isFinite = true ∧ n.y.isFinite = true) :
    ∃ a b c d : ℚ, a ≤ b ∧ c ≤ d ∧
      calculateBoundingBox l = ⟨.fin a, .fin b, .fin c, .fin d⟩ := by
  obtain ⟨n, t, rfl⟩ := List.exists_cons_of_ne_nil hne
  obtain ⟨hx, hy⟩ := hl n (List.mem_cons_self n t)
  obtain ⟨qx, hqx⟩ := JSNum.isFinite_exists hx
  obtain ⟨qy, hqy⟩ := JSNum.isFinite_exists hy
  unfold calculateBoundingBox
  rw [List.foldl_cons]
  have step : bboxStep ⟨.inf true, .inf false, .inf true, .inf false⟩ n =
      ⟨.fin qx, .fin qx, .fin qy, .fin qy⟩ := by
    simp [bboxStep, hqx, hqy, JSNum.min, JSNum.max]
  rw [step]
  exact bboxFold_fin t qx qx qy qy le_rfl le_rfl
    (fun m hm => hl m (List.mem_cons_of_mem n hm))

lemma calculateFitTransform_fin (a b c d w h : ℚ) (hab : a ≤ b) (hcd : c ≤ d) :
    ((calculateFitTransform ⟨.fin a, .fin b, .fin c, .fin d⟩
        (.fin w) (.fin h) (.fin 100)).translateX).isFinite = true ∧
    ((calculateFitTransform ⟨.fin a, .fin b, .fin c, .fin d⟩
        (.fin w) (.fin h) (.fin 100)).translateY).isFinite = true ∧
    ((calculateFitTransform ⟨.fin a, .fin b, .fin c, .fin d⟩
        (.fin w) (.fin h) (.fin 100)).scale).isFinite = true := by
  have hbw : (d + -c + 100 * 2 : ℚ) ≠ 0 := by
    have : (0 : ℚ) < d + -c + 100 * 2 := by linarith
    exact ne_of_gt this
  have hbh : (b + -a + 100 * 2 : ℚ) ≠ 0 := by
    have : (0 : ℚ) < b + -a + 100 * 2 := by linarith
    exact ne_of_gt this
  refine ⟨?_, ?_, ?_⟩ <;>
    simp [calculateFitTransform, JSNum.sub, JSNum.add, JSNum.neg, JSNum.mul,
      JSNum.div, JSNum.min, JSNum.isFinite, hbw, hbh]

/-- Claim C1 counterexample: for a zero-size bounding box the fit scale
is not 1 for every viewport; at a 100 by 100 viewport the scale is
`min(100/200, 100/200, 3) = 1/2`. -/
theorem fit_single_node_scale_not_one :
    (calculateFitTransform (calculateBoundingBox [⟨.fin 0, .fin 0⟩])
        (.fin 100) (.fin 100) (.fin 100)).scale = .fin (1 / 2) ∧
    JSNum.fin ((1 : ℚ) / 2) ≠ .fin 1 := by
  constructor
  · norm_num [calculateFitTransform, calculateBoundingBox, bboxStep, List.foldl,
      JSNum.min, JSNum.max, JSNum.div, JSNum.add, JSNum.sub, JSNum.neg, JSNum.mul,
      min_def]
  · simp

/-- Claim C1 (amended): for a degenerate single-node tree at `(x, y)`
and any viewport, `calculateFitTransform` divides only by the constant
`2 * padding = 200`, returns `scale = min(width/200, height/200, 3)`
(equal to 1 only when `min(width, height) = 200`, not in general), and a
translation that places the node, rendered at screen position
`translate(y * scale + translateX, x * scale + translateY)`, exactly at
the viewport center. -/
theorem fit_single_node_centers_point (x y w h : ℚ) :
    (calculateFitTransform (calculateBoundingBox [⟨.fin x, .fin y⟩])
        (.fin w) (.fin h) (.fin 100)).scale =
      .fin (Min.min (w / 200) (Min.min (h / 200) 3)) ∧
    ((JSNum.fin y).mul (calculateFitTransform (calculateBoundingBox [⟨.fin x, .fin y⟩])
        (.fin w) (.fin h) (.fin 100)).scale).add
      (calculateFitTransform (calculateBoundingBox [⟨.fin x, .fin y⟩])
        (.fin w) (.fin h) (.fin 100)).translateX = .fin (w / 2) ∧
    ((JSNum.fin x).mul (calculateFitTransform (calculateBoundingBox [⟨.fin x, .fin y⟩])
        (.fin w) (.fin h) (.fin 100)).scale).add
      (calculateFitTransform (calculateBoundingBox [⟨.fin x, .fin y⟩])
        (.fin w) (.fin h) (.fin 100)).translateY = .fin (h / 2) := by
  have hbw : (y + -y + 100 * 2 : ℚ) = 200 := by ring
  have hbh : (x + -x + 100 * 2 : ℚ) = 200 := by ring
  have hbb : calculateBoundingBox [⟨.fin x, .fin y⟩] =
      ⟨.fin x, .fin x, .fin y, .fin y⟩ := by
    simp [calculateBoundingBox, bboxStep, JSNum.min, JSNum.max]
  rw [hbb]
  unfold calculateFitTransform
  simp only [JSNum.sub, JSNum.neg, JSNum.add, JSNum.mul, JSNum.div, JSNum.min, hbw, hbh]
  norm_num

/-- Claim C3 counterexample: on the empty node set the bounding box is
`(Infinity, -Infinity, Infinity, -Infinity)`, and the fit transform
computed from it has NaN translations (the box center is
`Infinity + -Infinity = NaN`), so not all outputs are finite. -/
theorem fit_empty_bbox_gives_nan :
    (calculateFitTransform (calculateBoundingBox []) (.fin 800) (.fin 800)
        (.fin 100)).translateX = JSNum.nan ∧
    (calculateFitTransform (calculateBoundingBox []) (.fin 800) (.fin 800)
        (.fin 100)).translateY = JSNum.nan ∧
    JSNum.nan.isFinite = false := by decide

/-- Claim C3 (amended): for every nonempty set of laid-out nodes with
finite coordinates — including a single node with its zero-size bounding
box — the composition of `calculateBoundingBox` and
`calculateFitTransform` performs no division by zero (the denominators
are at least `2 * padding = 200`) and produces finite `translateX`,
`translateY` and `scale`.  The empty set is instead guarded at the
keyboard fit call site: `handleFitToCanvas` returns null before the fit
computation when there is no tree data or no descendants. -/
theorem fit_nonempty_no_nan (l : List DNode) (w h : ℚ) (hne : l ≠ [])
    (hl : ∀ n ∈ l, n.x.isFinite = true ∧ n.y.isFinite = true) :
    (((calculateFitTransform (calculateBoundingBox l) (.fin w) (.fin h)
        (.fin 100)).translateX).isFinite = true ∧
     ((calculateFitTransform (calculateBoundingBox l) (.fin w) (.fin h)
        (.fin 100)).translateY).isFinite = true ∧
     ((calculateFitTransform (calculateBoundingBox l) (.fin w) (.fin h)
        (.fin 100)).scale).isFinite = true) ∧
    handleFitToCanvas (some []) w h = none ∧
    handleFitToCanvas none w h = none := by
  obtain ⟨a, b, c, d, hab, hcd, hbb⟩ := calculateBoundingBox_fin l hne hl
  rw [hbb]
  exact ⟨calculateFitTransform_fin a b c d w h hab hcd, rfl, rfl⟩

/-- Witness for Claim C3 at a single node with finite coordinates. -/
theorem fit_nonempty_no_nan_witness :
    (([⟨JSNum.fin 0, JSNum.fin 0⟩] : List DNode) ≠ [] ∧
      (∀ n ∈ ([⟨JSNum.fin 0, JSNum.fin 0⟩] : List DNode),
        n.x.isFinite = true ∧ n.y.isFinite = true)) ∧
    ((((calculateFitTransform (calculateBoundingBox [⟨JSNum.fin 0, JSNum.fin 0⟩])
        (.fin 800) (.fin 600) (.fin 100)).translateX).isFinite = true ∧
      ((calculateFitTransform (calculateBoundingBox [⟨JSNum.fin 0, JSNum.fin 0⟩])
        (.fin 800) (.fin 600) (.fin 100)).translateY).isFinite = true ∧
      ((calculateFitTransform (calculateBoundingBox [⟨JSNum.fin 0, JSNum.fin 0⟩])
        (.fin 800) (.fin 600) (.fin 100)).scale).isFinite = true) ∧
     handleFitToCanvas (some []) 800 600 = none ∧
     handleFitToCanvas none 800 600 = none) :=
  ⟨⟨by decide, by decide⟩,
   fit_nonempty_no_nan [⟨JSNum.fin 0, JSNum.fin 0⟩] 800 600 (by decide) (by decide)⟩

lemma map_set_eq {α β : Type _} (f : α → β) (l : List α) (n : ℕ) (a : α)
    (h : ∀ x, l[n]? = some x → f a = f x) : (l.set n a).map f = l.map f := by
  induction l generalizing n with
  | nil => rfl
  | cons b t ih =>
      cases n with
      | zero =>
          have hb := h b (by simp)
          simp [List.set, hb]
      | succ m =>
          have ht : (t.set m a).map f = t.map f :=
            ih m (fun x hx => h x (by simpa using hx))
          simp [List.set, ht]

lemma getq_set {α : Type _} (l : List α) (i j : ℕ) (a x : α)
    (h : (l.set i a)[j]? = some x) : (i = j ∧ x = a) ∨ l[j]? = some x := by
  induction l generalizing i j with
  | nil => simp at h
  | cons b t ih =>
      cases i with
      | zero =>
          cases j with
          | zero =>
              left
              refine ⟨rfl, ?_⟩
              simp [List.set] at h
              exact h.symm
          | succ k =>
              right
              simp [List.set] at h ⊢
              exact h
      | succ m =>
          cases j with
          | zero =>
              right
              simp [List.set] at h ⊢
              exact h
          | succ k =>
              simp only [List.set, List.getElem?_cons_succ] at h ⊢
              rcases ih m k h with ⟨rfl, rfl⟩ | hk
              · exact Or.inl ⟨rfl, rfl⟩
              · exact Or.inr hk

lemma collideStep_stripDy (st : List Label × Bool) (ij : ℕ × ℕ) :
    (collideStep st ij).1.map stripDy = st.1.map stripDy := by
  rcases hga : st.1[ij.1]? with _ | a <;> rcases hgb : st.1[ij.2]? with _ | b <;>
    simp only [collideStep, hga, hgb]
  by_cases hc : Collide a b
  · rw [if_pos hc]
    dsimp only
    have hinner : (st.1.set ij.1 (adjustPair a b).1).map stripDy = st.1.map stripDy := by
      refine map_set_eq _ _ _ _ (fun x hx => ?_)
      rw [hga] at hx
      cases hx
      rfl
    have houter : ((st.1.set ij.1 (adjustPair a b).1).set ij.2 (adjustPair a b).2).map stripDy
        = (st.1.set ij.1 (adjustPair a b).1).map stripDy := by
      refine map_set_eq _ _ _ _ (fun x hx => ?_)
      rcases getq_set _ _ _ _ _ hx with ⟨hij, rfl⟩ | hjx
      · rw [hij] at hga
        rw [hga] at hgb
        cases hgb
        rfl
      · rw [hgb] at hjx
        cases hjx
        rfl
    rw [houter, hinner]
  · rw [if_neg hc]

lemma foldl_collideStep_stripDy (ps : List (ℕ × ℕ)) (st : List Label × Bool) :
    ((ps.foldl collideStep st).1).map stripDy = st.1.map stripDy := by
  induction ps generalizing st with
  | nil => rfl
  | cons p ps ih => rw [List.foldl_cons, ih, collideStep_stripDy]

lemma onePass_stripDy (arr : List Label) :
    (onePass arr).1.map stripDy = arr.map stripDy :=
  foldl_collideStep_stripDy _ _

lemma resolveIterations_stripDy (n : ℕ) (arr : List Label) :
    (resolveIterations n arr).map stripDy = arr.map stripDy := by
  induction n generalizing arr with
  | zero => rfl
  | succ n ih =>
      rw [resolveIterations]
      cases hp : (onePass arr).2 with
      | true => simp only [hp, if_true]; rw [ih, onePass_stripDy]
      | false => simp only [hp, Bool.false_eq_true, if_false]; rw [onePass_stripDy]

lemma insertByX_perm (a : Label) (l : List Label) : (insertByX a l).Perm (a :: l) := by
  induction l with
  | nil => exact List.Perm.refl _
  | cons b t ih =>
      unfold insertByX
      by_cases hx : a.x ≤ b.x
      · rw [if_pos hx]
      · rw [if_neg hx]
        exact (ih.cons b).trans (List.Perm.swap a b t)

lemma sortByX_perm (l : List Label) : (sortByX l).Perm l := by
  induction l with
  | nil => exact List.Perm.refl _
  | cons a t ih => exact (insertByX_perm a (sortByX t)).trans (ih.cons a)

/-- Claim C7: the collision resolver mutates only the vertical text
offset `dy`: every other label field (horizontal position, vertical bbox
position, width, height, node center, depth) is preserved pointwise
along the sorted order, and as a multiset relative to the input; in
particular no horizontal coordinate, width, or horizontal ordering
changes, and node positions are not touched at all (the resolver only
reads them). -/
theorem resolve_mutates_only_dy (labels : List Label) :
    (resolveTextCollisions labels).map stripDy = (sortByX labels).map stripDy ∧
    ((resolveTextCollisions labels).map stripDy).Perm (labels.map stripDy) := by
  have h1 : (resolveTextCollisions labels).map stripDy = (sortByX labels).map stripDy :=
    resolveIterations_stripDy 10 (sortByX labels)
  refine ⟨h1, ?_⟩
  rw [h1]
  exact (sortByX_perm labels).map stripDy

lemma adjustPair_no_collide (a b : Label) :
    ¬ Collide (adjustPair a b).1 (adjustPair a b).2 := by
  rintro ⟨-, hv⟩
  apply hv
  left
  dsimp only [adjustPair]
  linarith

lemma onePass_pair (a b : Label) :
    onePass [a, b] =
      if Collide a b then ([(adjustPair a b).1, (adjustPair a b).2], true)
      else ([a, b], false) := by
  have hpi : pairIndices 2 = [(0, 1)] := by decide
  unfold onePass
  rw [show ([a, b] : List Label).length = 2 from rfl, hpi]
  simp only [List.foldl_cons, List.foldl_nil]
  by_cases hc : Collide a b
  · simp [collideStep, hc, List.set]
  · simp [collideStep, hc]

lemma resolveIterations_pair_no_collide (n : ℕ) (a b : Label) (h : ¬ Collide a b) :
    resolveIterations n [a, b] = [a, b] := by
  cases n with
  | zero => rfl
  | succ n =>
      rw [resolveIterations, onePass_pair, if_neg h]
      rfl

lemma resolve_pair_eval (a b : Label) :
    resolveIterations 10 [a, b] =
      if Collide a b then [(adjustPair a b).1, (adjustPair a b).2] else [a, b] := by
  by_cases hc : Collide a b
  · rw [if_pos hc]
    rw [resolveIterations, onePass_pair, if_pos hc]
    exact resolveIterations_pair_no_collide 9 _ _ (adjustPair_no_collide a b)
  · rw [if_neg hc]
    exact resolveIterations_pair_no_collide 10 a b hc

lemma sortByX_pair (a b : Label) :
    sortByX [a, b] = if a.x ≤ b.x then [a, b] else [b, a] := by
  simp only [sortByX, insertByX]

/-- Claim C4: on any pair of labels the collision resolver is idempotent
after its first run: applying `resolveTextCollisions` to its own output
leaves every vertical offset (and hence the whole label list) unchanged,
because an adjusted pair is left with a 15px vertical gap, above the
10px collision margin, so the second run finds no collision. -/
theorem resolve_pair_idempotent (a b : Label) :
    resolveTextCollisions (resolveTextCollisions [a, b]) =
      resolveTextCollisions [a, b] := by
  have key : ∀ p q : Label, p.x ≤ q.x →
      resolveTextCollisions (resolveTextCollisions [p, q]) =
        resolveTextCollisions [p, q] := by
    intro p q hpq
    unfold resolveTextCollisions
    rw [sortByX_pair, if_pos hpq, resolve_pair_eval]
    by_cases hc : Collide p q
    · rw [if_pos hc]
      have hx : (adjustPair p q).1.x ≤ (adjustPair p q).2.x := hpq
      rw [sortByX_pair, if_pos hx, resolve_pair_eval,
        if_neg (adjustPair_no_collide p q)]
    · rw [if_neg hc]
      rw [sortByX_pair, if_pos hpq, resolve_pair_eval, if_neg hc]
  by_cases hab : a.x ≤ b.x
  · exact key a b hab
  · have hba : b.x ≤ a.x := le_of_not_le hab
    have hswap : resolveTextCollisions [a, b] = resolveTextCollisions [b, a] := by
      unfold resolveTextCollisions
      rw [sortByX_pair, if_neg hab, sortByX_pair, if_pos hba]
    rw [hswap]
    exact key b a hba
